import Mathlib

/-!
Shallow embedding of the go-ddns dynamic DNS updater.

The repository ships two revisions of the updater in `main.go`:
an older one that caches the last written IP across cycles
(`updateRecords`, `updateDNSEntriesIP`, `getDNSEntriesIP`, global
`lastIPAddr`), and a newer provider-truth-per-cycle one
(`runUpdateLoop`'s `loopFunc`, `checkAndUpdate`) whose GoDaddy client
lives in a separate file (`getDomainAtRecordIP`, `setDomainAtRecord`).
Both are embedded below; HTTP transport, body reading and JSON decoding
are abstracted as oracles passed to each function, and a Go runtime
panic (out-of-range slice index) is modelled by an explicit `crash`
outcome so that every function is total.
-/

/-- Outcome of a Go function returning `(value, error)`, extended with a
`crash` constructor modelling an unrecovered Go runtime panic such as an
out-of-range slice index. -/
inductive GoResult (α : Type) where
  | ok (a : α)
  | err (msg : String)
  | crash (msg : String)
deriving DecidableEq

/-- True exactly on the `crash` outcome. -/
def GoResult.isCrash : GoResult α → Bool
  | .crash _ => true
  | _ => false

/-- An HTTP response as the program observes it: the status code and the
outcome of reading the whole body (`io.ReadAll` may fail). -/
structure HttpResponse where
  statusCode : Nat
  bodyRead : Except String String

/-- Outcome of `httpClient.Do`: either a response or a transport error. -/
inductive TransportResult where
  | ok (resp : HttpResponse)
  | err (msg : String)

/-- One element of the JSON array returned by
`GET /v1/domains/{domain}/records/A/@` (struct
`GodaddyGetDNSRecordResponse` in the source: fields `data` and `name`). -/
structure GodaddyGetDNSRecordResponse where
  data : String
  name : String
deriving DecidableEq

/-- Go's `strings.TrimRight(s, cutset)`: remove all trailing characters
of `s` that occur in `cutset`. -/
def goTrimRight (s cutset : String) : String :=
  ⟨(s.data.reverse.dropWhile (fun c => cutset.data.contains c)).reverse⟩

/-- Go's `strings.Split(s, sep)` for a one-character separator, on
character lists: splits around every occurrence of `sep`; the result is
never empty, and splitting the empty string yields `[[]]`. -/
def goSplitList (sep : Char) : List Char → List (List Char)
  | [] => [[]]
  | c :: rest =>
    if c = sep then [] :: goSplitList sep rest
    else
      match goSplitList sep rest with
      | [] => [[c]]
      | g :: gs => (c :: g) :: gs

/-- Go's `strings.Split(s, sep)` for a one-character separator. -/
def goSplit (s : String) (sep : Char) : List String :=
  (goSplitList sep s.data).map (fun l => ⟨l⟩)

/-- The `GD_DOMAINS` part of the environment-reading `init` function:
`domains = strings.Split(os.Getenv("GD_DOMAINS"), ",")`, followed by
`if len(domains) < 1 { log.Fatalf(...) }`.  `Except.error` models the
fatal exit. -/
def initDomains (gdDomainsEnv : String) : Except String (List String) :=
  let ds := goSplit gdDomainsEnv ','
  if ds.length < 1 then
    .error "No domains provided in environment (GD_DOMAINS)."
  else
    .ok ds

/-- `getDomainAtRecordIP` from the client file: issues the authenticated
GET, reads the body, rejects non-200 statuses, JSON-decodes the body
into a `[]GodaddyGetDNSRecordResponse`, and returns `res[0].Data`.  The
final index is taken without a non-emptiness check, so an empty decoded
array is the `crash` outcome.  `decode` is the `json.Unmarshal` oracle. -/
def getDomainAtRecordIP (transport : TransportResult)
    (decode : String → Except String (List GodaddyGetDNSRecordResponse)) :
    GoResult String :=
  match transport with
  | .err m => .err m
  | .ok resp =>
    match resp.bodyRead with
    | .error m => .err m
    | .ok bodyBytes =>
      if resp.statusCode ≠ 200 then
        .err ("godaddy sent non-ok status code " ++ toString resp.statusCode
          ++ ", body: " ++ bodyBytes)
      else
        match decode bodyBytes with
        | .error m => .err m
        | .ok res =>
          match res.head? with
          | none => .crash "index out of range"
          | some r => .ok r.data

/-- `setDomainAtRecord` from the client file: issues the authenticated
PUT for `domain` carrying `ip`.  `none` models a `nil` error return.
The source's transport-failure branch is
`res, err := httpClient.Do(req); if err != nil { return nil }` — it
returns `nil`, not the error, so a transport failure is reported as
success here. -/
def setDomainAtRecord (domain ip : String) (transport : TransportResult) :
    Option String :=
  match transport with
  | .err _ => none
  | .ok res =>
    if res.statusCode ≠ 200 then
      match res.bodyRead with
      | .error e =>
        some ("received non-ok status code " ++ toString res.statusCode
          ++ " from godaddy, but failed to read body: " ++ e)
      | .ok b =>
        some ("received non-ok status code " ++ toString res.statusCode
          ++ " from godaddy, body: " ++ b)
    else none

/-- `getPublicIPAddress` from the newer revision: GET `http://ifconfig.co`,
read the body, and return `strings.TrimRight(body, "\n")`. -/
def getPublicIPAddress (transport : TransportResult) : Except String String :=
  match transport with
  | .err m => .error m
  | .ok resp =>
    match resp.bodyRead with
    | .error m => .error m
    | .ok body => .ok (goTrimRight body "\n")

/-- A PUT of the A record issued for `domain` carrying `ip` as the record
data (the observable effect of one `setDomainAtRecord` call). -/
structure WriteCall where
  domain : String
  ip : String
deriving DecidableEq

/-- `checkAndUpdate` from the newer revision: read the current record via
`getDomainAtRecordIP` (oracle `read`), return the wrapped error if the
read fails, do nothing if the record already equals `currentIpAddr`, and
otherwise call `setDomainAtRecord` (oracle `write`) once with
`(domain, currentIpAddr)`.  The second component lists the write calls
issued. -/
def checkAndUpdate (read : String → GoResult String)
    (write : String → String → Option String)
    (domain currentIpAddr : String) : GoResult Unit × List WriteCall :=
  match read domain with
  | .crash m => (.crash m, [])
  | .err m =>
    (.err ("failed to get DNS record IP address for domain " ++ domain
      ++ ": " ++ m), [])
  | .ok godaddyIPAddr =>
    if currentIpAddr = godaddyIPAddr then (.ok (), [])
    else
      match write domain currentIpAddr with
      | some m => (.err m, [⟨domain, currentIpAddr⟩])
      | none => (.ok (), [⟨domain, currentIpAddr⟩])

/-- Observable trace of one cycle of the newer revision's update loop:
the domains whose records were read, the writes issued, the error
messages logged, and whether the cycle died in a runtime panic. -/
structure CycleLog where
  reads : List String
  writes : List WriteCall
  logged : List String
  crashed : Option String
deriving DecidableEq

/-- The per-domain `for` loop inside the newer revision's `loopFunc`:
`checkAndUpdate` runs for each domain in order, each error is logged
independently, and a runtime panic aborts the remainder. -/
def runDomains (read : String → GoResult String)
    (write : String → String → Option String) (currIPAddr : String) :
    List String → CycleLog
  | [] => ⟨[], [], [], none⟩
  | d :: rest =>
    match checkAndUpdate read write d currIPAddr with
    | (.crash m, ws) => ⟨[d], ws, [], some m⟩
    | (.err m, ws) =>
      let l := runDomains read write currIPAddr rest
      ⟨d :: l.reads, ws ++ l.writes,
        ("Failed to update DNS records: " ++ m) :: l.logged, l.crashed⟩
    | (.ok _, ws) =>
      let l := runDomains read write currIPAddr rest
      ⟨d :: l.reads, ws ++ l.writes, l.logged, l.crashed⟩

/-- `loopFunc` from the newer revision's `runUpdateLoop`: resolve the
public IP once; on failure log one error and return without touching any
domain; on success run `checkAndUpdate` for every configured domain. -/
def loopFunc (resolve : Except String String)
    (read : String → GoResult String)
    (write : String → String → Option String)
    (domains : List String) : CycleLog :=
  match resolve with
  | .error m => ⟨[], [], ["failed to get public IP address: " ++ m], none⟩
  | .ok currIPAddr => runDomains read write currIPAddr domains

/-- The update decision as the spec words it (`needsUpdate(lastKnown,
current) := lastKnown != current`), stated separately so it can be
compared with the test the source inlines in `checkAndUpdate`
(`if currentIpAddr == godaddyIPAddr { return nil }`). -/
def needsUpdate (lastKnown current : String) : Bool :=
  lastKnown != current

/-- Outcome of one domain's record fetch in the older revision's
`getDNSEntriesIP`: a transport error, a JSON decode error, or the
decoded record array. -/
inductive FetchOutcome where
  | transportErr (msg : String)
  | decodeErr (msg : String)
  | records (rs : List GodaddyGetDNSRecordResponse)

/-- The `for` loop of the older revision's `getDNSEntriesIP`, with the
accumulator `retval` explicit: each domain's record array is fetched
(oracle `fetch`), errors propagate, `data[0]` is indexed without a
non-emptiness check (the `crash` outcome), and the loop returns the
sentinel `"0.0.0.0"` as soon as the fetched value differs from a
non-empty `retval`. -/
def getDNSEntriesIPLoop (fetch : String → FetchOutcome) :
    List String → String → GoResult String
  | [], retval => .ok retval
  | d :: rest, retval =>
    match fetch d with
    | .transportErr m => .err m
    | .decodeErr m => .err m
    | .records rs =>
      match rs.head? with
      | none => .crash "index out of range"
      | some r =>
        if retval ≠ r.data ∧ retval ≠ "" then .ok "0.0.0.0"
        else getDNSEntriesIPLoop fetch rest r.data

/-- `getDNSEntriesIP` from the older revision: runs the loop above over
the configured domains with `retval` starting at `""`. -/
def getDNSEntriesIP (fetch : String → FetchOutcome)
    (domains : List String) : GoResult String :=
  getDNSEntriesIPLoop fetch domains ""

/-- A fetch oracle in which every domain's read succeeds and reports a
single A record whose data is `val d` — the setting under which the
spec's sentences about `getDNSEntriesIP` quantify over reported IPs. -/
def recFetch (val : String → String) : String → FetchOutcome :=
  fun d => .records [⟨val d, "@"⟩]

/-- `updateDNSEntriesIP` from the older revision: PUT the new record for
each domain in turn (oracle `write`, depending on domain and the new
IP); a transport error or a non-200 status aborts with that error,
otherwise `nil` is returned after the last domain.  The non-200 message
carries whatever `ioutil.ReadAll` yields (its error is discarded by the
source, modelled as the empty body). -/
def updateDNSEntriesIP (write : String → String → TransportResult)
    (ipaddr : String) : List String → Option String
  | [] => none
  | domain :: rest =>
    match write domain ipaddr with
    | .err e => some e
    | .ok res =>
      if res.statusCode ≠ 200 then
        some ("updating dns record for domain " ++ domain
          ++ " failed with status code " ++ toString res.statusCode ++ ": "
          ++ (match res.bodyRead with | .ok b => b | .error _ => ""))
      else updateDNSEntriesIP write ipaddr rest

/-- `updateRecords` from the older revision, with the global `lastIPAddr`
made an explicit argument.  When `last = ""` the current record state is
first fetched via `getDNSEntriesIP` (note Go's multi-assignment leaves
`lastIPAddr` at `""` when that fetch errors); then the public IP is
resolved, compared with the cached value, and on a difference
`updateDNSEntriesIP` runs, with `lastIPAddr` assigned the new value only
after it returns `nil`.  The result pairs the new `lastIPAddr` with the
returned error. -/
def updateRecords (fetch : String → FetchOutcome)
    (resolve : Except String String)
    (write : String → String → TransportResult)
    (domains : List String) (last : String) :
    GoResult (String × Option String) :=
  match (if last = "" then getDNSEntriesIP fetch domains else .ok last) with
  | .crash m => .crash m
  | .err e => .ok ("", some ("failed to get current DNS IP address: " ++ e))
  | .ok last1 =>
    match resolve with
    | .error e =>
      .ok (last1, some ("failed to get public Data address: " ++ e))
    | .ok currIPAddr =>
      if currIPAddr = last1 then .ok (last1, none)
      else
        match updateDNSEntriesIP write currIPAddr domains with
        | some e => .ok (last1, some e)
        | none => .ok (currIPAddr, none)

/-- Claim C1: the spec's error taxonomy demands a `NetworkError` (a
non-nil error) from `setDomainAtRecord` when the HTTP transport call
fails, but the source's branch `if err != nil { return nil }` returns
`nil`: for every domain, IP and transport error message the write
operation reports success. -/
theorem setDomainAtRecord_transport_error_returns_nil
    (domain ip m : String) :
    setDomainAtRecord domain ip (.err m) = none := rfl

/-- Splitting never yields the empty list, whatever the separator and
input: Go's `strings.Split` returns at least one (possibly empty)
field. -/
theorem goSplitList_ne_nil (sep : Char) (l : List Char) :
    goSplitList sep l ≠ [] := by
  induction l with
  | nil => simp [goSplitList]
  | cons c rest ih =>
    rw [goSplitList]
    split
    · simp
    · cases h : goSplitList sep rest with
      | nil => exact absurd h ih
      | cons g gs => simp [h]

/-- Claim C2: the claim says startup is fatal when `GD_DOMAINS` is
absent or empty, but `strings.Split("", ",")` yields `[""]`, so
`len(domains) < 1` never holds: the empty environment value produces the
single empty domain `""` and startup succeeds, and in fact the fatal
branch is unreachable for every environment value. -/
theorem initDomains_never_fatal :
    initDomains "" = .ok [""] ∧ ∀ env, ∃ ds, initDomains env = .ok ds := by
  constructor
  · rfl
  · intro env
    refine ⟨goSplit env ',', ?_⟩
    have h : goSplitList ',' env.data ≠ [] := goSplitList_ne_nil _ _
    simp [initDomains, goSplit, Nat.lt_one_iff, List.length_eq_zero, h]

/-- Claim C5: in a cycle whose public-IP resolution fails, `loopFunc`
reads no domain's record, issues no write, logs the failure exactly
once, and does not crash — whatever the configured domains and the
record oracles. -/
theorem loopFunc_resolve_failure_aborts_cycle (m : String)
    (read : String → GoResult String)
    (write : String → String → Option String) (domains : List String) :
    loopFunc (.error m) read write domains =
      ⟨[], [], ["failed to get public IP address: " ++ m], none⟩ := rfl

/-- Claim C3: given that the record read for `domain` succeeds with
value `g`, `checkAndUpdate` issues a write exactly when `g` differs from
the resolved public IP, and in that case issues exactly one write,
carrying the resolved public IP as the record data — independently of
the write's own outcome. -/
theorem checkAndUpdate_write_iff_differs
    (read : String → GoResult String)
    (write : String → String → Option String) (domain ip g : String)
    (hread : read domain = .ok g) :
    ((checkAndUpdate read write domain ip).2 ≠ [] ↔ ip ≠ g) ∧
    (checkAndUpdate read write domain ip).2 =
      (if ip = g then [] else [⟨domain, ip⟩]) := by
  unfold checkAndUpdate
  rw [hread]
  by_cases h : ip = g
  · subst h; simp
  · simp only [if_neg h]
    cases write domain ip <;> simp [h]

/-- Witness for claim C3 at a concrete input: record "1.2.3.4", resolved
public IP "5.6.7.8" — one write with data "5.6.7.8". -/
theorem checkAndUpdate_write_iff_differs_witness :
    ((checkAndUpdate (fun _ => .ok "1.2.3.4") (fun _ _ => none)
        "example.com" "5.6.7.8").2 ≠ [] ↔ ("5.6.7.8" : String) ≠ "1.2.3.4") ∧
    (checkAndUpdate (fun _ => .ok "1.2.3.4") (fun _ _ => none)
        "example.com" "5.6.7.8").2 =
      (if ("5.6.7.8" : String) = "1.2.3.4" then []
       else [⟨"example.com", "5.6.7.8"⟩]) :=
  checkAndUpdate_write_iff_differs (fun _ => .ok "1.2.3.4")
    (fun _ _ => none) "example.com" "5.6.7.8" "1.2.3.4" rfl

/-- Claim C4: the update decision is the pure inequality test —
`needsUpdate A B` is true for all distinct `A`, `B` and false on equal
arguments — and it is exactly the test the source inlines in
`checkAndUpdate`: when the record read succeeds with `g`, a write is
issued iff `needsUpdate g ip` holds. -/
theorem needsUpdate_spec_agrees_with_code :
    (∀ A B : String, A ≠ B → needsUpdate A B = true) ∧
    (∀ A : String, needsUpdate A A = false) ∧
    (∀ (read : String → GoResult String)
       (write : String → String → Option String) (d ip g : String),
       read d = .ok g →
       ((checkAndUpdate read write d ip).2 ≠ [] ↔ needsUpdate g ip = true)) := by
  refine ⟨?_, ?_, ?_⟩
  · intro A B h
    simp [needsUpdate, h]
  · intro A
    simp [needsUpdate]
  · intro read write d ip g hread
    unfold checkAndUpdate
    rw [hread]
    by_cases h : ip = g
    · subst h; simp [needsUpdate]
    · simp only [if_neg h]
      cases write d ip <;> simp [needsUpdate, h, Ne.symm h]

/-- A character surviving at the head of `dropWhile p` falsifies `p`. -/
theorem head?_dropWhile_not {α : Type} (p : α → Bool) (l : List α) (c : α)
    (h : (l.dropWhile p).head? = some c) : p c = false := by
  induction l with
  | nil => simp [List.dropWhile] at h
  | cons a t ih =>
    rw [List.dropWhile_cons] at h
    split at h
    · exact ih h
    · simp only [List.head?_cons, Option.some.injEq] at h
      subst h
      rename_i ha
      simp only [Bool.not_eq_true] at ha
      exact ha

/-- Decomposition of right-trimming: when `p` holds exactly on the
character `a`, stripping the maximal run of trailing `p`-characters
writes `l` as the trimmed part followed by a block of `a`s, and the
trimmed part does not end in `a`. -/
theorem dropWhile_reverse_decomp (p : Char → Bool) (l : List Char) (a : Char)
    (hp : ∀ c, p c = true ↔ c = a) :
    l = (l.reverse.dropWhile p).reverse ++
        List.replicate (l.reverse.takeWhile p).length a ∧
    ∀ c, ((l.reverse.dropWhile p).reverse).getLast? = some c → c ≠ a := by
  constructor
  · conv_lhs => rw [← l.reverse_reverse,
      ← List.takeWhile_append_dropWhile p l.reverse, List.reverse_append]
    congr 1
    have hall : ∀ b ∈ l.reverse.takeWhile p, b = a :=
      fun b hb => (hp b).1 (List.mem_takeWhile_imp hb)
    calc (l.reverse.takeWhile p).reverse
        = (List.replicate (l.reverse.takeWhile p).length a).reverse := by
          rw [← List.eq_replicate_length.mpr hall]
      _ = List.replicate (l.reverse.takeWhile p).length a :=
          List.reverse_replicate _ _
  · intro c hc hca
    rw [List.getLast?_reverse] at hc
    have hfalse := head?_dropWhile_not p l.reverse c hc
    rw [(hp c).2 hca] at hfalse
    exact absurd hfalse (by decide)

/-- The cutset `"\n"` of the source's `strings.TrimRight` call contains
exactly the newline character. -/
theorem newline_cutset_iff (c : Char) :
    ("\n".data.contains c) = true ↔ c = '\n' := by
  simp [List.contains]

/-- Claim C8 counterexample: the resolver strips only trailing newline
characters, not trailing whitespace in general — a body `"1.2.3.4 \n"`
yields `"1.2.3.4 "` with its trailing space intact, not `"1.2.3.4"`. -/
theorem getPublicIPAddress_keeps_trailing_space :
    getPublicIPAddress (.ok ⟨200, Except.ok "1.2.3.4 \n"⟩) =
      .ok "1.2.3.4 " ∧ ("1.2.3.4 " : String) ≠ "1.2.3.4" := by
  exact ⟨rfl, by decide⟩

/-- Claim C8 (amended): for every body the resolver returns the body
with its maximal run of trailing newline characters removed — the body
is the returned address followed by a block of `'\n'`s, and the returned
address does not end in `'\n'`; trailing whitespace other than newlines
is preserved. -/
theorem getPublicIPAddress_trims_trailing_newlines
    (resp : HttpResponse) (body : String) (hb : resp.bodyRead = .ok body) :
    ∃ ip n, getPublicIPAddress (.ok resp) = .ok ip ∧
      body.data = ip.data ++ List.replicate n '\n' ∧
      ∀ c, ip.data.getLast? = some c → c ≠ '\n' := by
  refine ⟨goTrimRight body "\n",
    (body.data.reverse.takeWhile (fun c => "\n".data.contains c)).length,
    ?_, ?_, ?_⟩
  · simp [getPublicIPAddress, hb]
  · exact (dropWhile_reverse_decomp _ body.data '\n' newline_cutset_iff).1
  · exact (dropWhile_reverse_decomp _ body.data '\n' newline_cutset_iff).2

/-- Witness for claim C8 (amended) at the spec's example body. -/
theorem getPublicIPAddress_trims_trailing_newlines_witness :
    ∃ ip n, getPublicIPAddress (.ok ⟨200, Except.ok "1.2.3.4\n"⟩) = .ok ip ∧
      ("1.2.3.4\n" : String).data = ip.data ++ List.replicate n '\n' ∧
      ∀ c, ip.data.getLast? = some c → c ≠ '\n' :=
  getPublicIPAddress_trims_trailing_newlines ⟨200, Except.ok "1.2.3.4\n"⟩
    "1.2.3.4\n" rfl

/-- Claim C9: a 200 response whose body decodes to the empty JSON array
drives `getDomainAtRecordIP` into the unchecked `res[0]` index: the
result is the out-of-range crash outcome, not an `ok` value and not an
error return such as a `NotFoundError`. -/
theorem getDomainAtRecordIP_empty_array_crashes
    (resp : HttpResponse)
    (decode : String → Except String (List GodaddyGetDNSRecordResponse))
    (body : String) (h200 : resp.statusCode = 200)
    (hb : resp.bodyRead = .ok body) (hdec : decode body = .ok []) :
    getDomainAtRecordIP (.ok resp) decode = .crash "index out of range" := by
  simp [getDomainAtRecordIP, hb, h200, hdec]

/-- Witness for claim C9: status 200, body `"[]"`, decoder returning the
empty array. -/
theorem getDomainAtRecordIP_empty_array_crashes_witness :
    getDomainAtRecordIP (.ok ⟨200, Except.ok "[]"⟩)
      (fun _ => Except.ok []) = .crash "index out of range" :=
  getDomainAtRecordIP_empty_array_crashes ⟨200, Except.ok "[]"⟩
    (fun _ => Except.ok []) "[]" rfl rfl rfl

/-- Witness for claim C4 at concrete strings. -/
theorem needsUpdate_spec_agrees_with_code_witness :
    needsUpdate "1.2.3.4" "5.6.7.8" = true ∧
    needsUpdate "1.2.3.4" "1.2.3.4" = false ∧
    ((checkAndUpdate (fun _ => .ok "1.2.3.4") (fun _ _ => none)
        "example.com" "5.6.7.8").2 ≠ [] ↔
      needsUpdate "1.2.3.4" "5.6.7.8" = true) :=
  ⟨needsUpdate_spec_agrees_with_code.1 _ _ (by decide),
   needsUpdate_spec_agrees_with_code.2.1 _,
   needsUpdate_spec_agrees_with_code.2.2 (fun _ => .ok "1.2.3.4")
     (fun _ _ => none) "example.com" "5.6.7.8" "1.2.3.4" rfl⟩

/-- `checkAndUpdate` crashes exactly when the record read does: a failed
write only ever yields an error return, never a runtime panic. -/
theorem checkAndUpdate_crash_iff (read : String → GoResult String)
    (write : String → String → Option String) (d ip : String) :
    ((checkAndUpdate read write d ip).1).isCrash = (read d).isCrash := by
  unfold checkAndUpdate
  cases read d with
  | crash m => rfl
  | err m => rfl
  | ok g =>
    by_cases h : ip = g
    · simp [h, GoResult.isCrash]
    · simp only [if_neg h]
      cases write d ip <;> simp [GoResult.isCrash]

/-- Claim C6: when no domain's read panics, a cycle checks every
configured domain in order — one read per domain — and each domain
contributes exactly its own `checkAndUpdate`'s writes and its own error
message to the cycle's log, independently of the other domains'
outcomes. -/
theorem loopFunc_domain_failures_independent
    (read : String → GoResult String)
    (write : String → String → Option String)
    (ip : String) (domains : List String)
    (hnc : ∀ d ∈ domains, (read d).isCrash = false) :
    (loopFunc (.ok ip) read write domains).reads = domains ∧
    (loopFunc (.ok ip) read write domains).writes =
      domains.flatMap (fun d => (checkAndUpdate read write d ip).2) ∧
    (loopFunc (.ok ip) read write domains).logged =
      domains.filterMap (fun d =>
        match (checkAndUpdate read write d ip).1 with
        | .err m => some ("Failed to update DNS records: " ++ m)
        | _ => none) := by
  have main : ∀ ds : List String, (∀ d ∈ ds, (read d).isCrash = false) →
      runDomains read write ip ds =
        ⟨ds, ds.flatMap (fun d => (checkAndUpdate read write d ip).2),
         ds.filterMap (fun d =>
           match (checkAndUpdate read write d ip).1 with
           | .err m => some ("Failed to update DNS records: " ++ m)
           | _ => none), none⟩ := by
    intro ds
    induction ds with
    | nil => intro _; rfl
    | cons d rest ih =>
      intro h
      have hd : (read d).isCrash = false := h d (List.mem_cons_self d rest)
      have hrest : ∀ x ∈ rest, (read x).isCrash = false :=
        fun x hx => h x (List.mem_cons_of_mem d hx)
      have hcc := checkAndUpdate_crash_iff read write d ip
      rw [hd] at hcc
      simp only [runDomains]
      cases hc : checkAndUpdate read write d ip with
      | mk r ws =>
        cases r with
        | crash m =>
          rw [hc] at hcc
          exact absurd hcc (by simp [GoResult.isCrash])
        | err m =>
          simp [ih hrest, List.filterMap_cons, List.flatMap_cons, hc]
        | ok u =>
          simp [ih hrest, List.filterMap_cons, List.flatMap_cons, hc]
  have hl : loopFunc (.ok ip) read write domains =
      runDomains read write ip domains := rfl
  rw [hl, main domains hnc]
  exact ⟨rfl, rfl, rfl⟩

/-- Witness for claim C6: "a.com" reads fine, "b.com"'s read fails —
"a.com" is still checked and written, and "b.com"'s failure is logged
on its own. -/
theorem loopFunc_domain_failures_independent_witness :
    (∀ d ∈ ["a.com", "b.com"],
      ((fun x => if x = "b.com" then GoResult.err "boom"
        else GoResult.ok "1.2.3.4") d).isCrash = false) ∧
    ((loopFunc (.ok "5.6.7.8")
        (fun x => if x = "b.com" then GoResult.err "boom"
          else GoResult.ok "1.2.3.4")
        (fun _ _ => none) ["a.com", "b.com"]).reads = ["a.com", "b.com"] ∧
     (loopFunc (.ok "5.6.7.8")
        (fun x => if x = "b.com" then GoResult.err "boom"
          else GoResult.ok "1.2.3.4")
        (fun _ _ => none) ["a.com", "b.com"]).writes =
       (["a.com", "b.com"] : List String).flatMap (fun d =>
         (checkAndUpdate
           (fun x => if x = "b.com" then GoResult.err "boom"
             else GoResult.ok "1.2.3.4")
           (fun _ _ => none) d "5.6.7.8").2) ∧
     (loopFunc (.ok "5.6.7.8")
        (fun x => if x = "b.com" then GoResult.err "boom"
          else GoResult.ok "1.2.3.4")
        (fun _ _ => none) ["a.com", "b.com"]).logged =
       (["a.com", "b.com"] : List String).filterMap (fun d =>
         match (checkAndUpdate
           (fun x => if x = "b.com" then GoResult.err "boom"
             else GoResult.ok "1.2.3.4")
           (fun _ _ => none) d "5.6.7.8").1 with
         | .err m => some ("Failed to update DNS records: " ++ m)
         | _ => none)) :=
  ⟨by decide,
   loopFunc_domain_failures_independent
     (fun x => if x = "b.com" then GoResult.err "boom"
       else GoResult.ok "1.2.3.4")
     (fun _ _ => none) "5.6.7.8" ["a.com", "b.com"] (by decide)⟩

/-- Claim C7: with the cached IP known (`last ≠ ""`), one run of
`updateRecords` either leaves the cache untouched — in particular on
every failed or erroring write, including a non-200 response — or the
write pass over all domains returned `nil` and only then is the cache
set to the newly resolved address. -/
theorem updateRecords_cache_mutation_only_on_success
    (fetch : String → FetchOutcome) (resolve : Except String String)
    (write : String → String → TransportResult)
    (domains : List String) (last : String) (h : last ≠ "") :
    (∃ e, updateRecords fetch resolve write domains last = .ok (last, e)) ∨
    (∃ curr, resolve = .ok curr ∧
      updateDNSEntriesIP write curr domains = none ∧
      updateRecords fetch resolve write domains last = .ok (curr, none)) := by
  unfold updateRecords
  rw [if_neg h]
  cases resolve with
  | error e => exact Or.inl ⟨some ("failed to get public Data address: " ++ e), rfl⟩
  | ok curr =>
    by_cases hc : curr = last
    · exact Or.inl ⟨none, by simp [hc]⟩
    · cases hw : updateDNSEntriesIP write curr domains with
      | some e => exact Or.inl ⟨some e, by simp [hc, hw]⟩
      | none => exact Or.inr ⟨curr, rfl, hw, by simp [hc, hw]⟩

/-- Witness for claim C7 at a concrete input: cache "1.1.1.1", resolved
IP "2.2.2.2", all writes answered 200. -/
theorem updateRecords_cache_mutation_only_on_success_witness :
    (∃ e, updateRecords (fun _ => .records []) (.ok "2.2.2.2")
        (fun _ _ => .ok ⟨200, Except.ok ""⟩) ["example.com"] "1.1.1.1" =
        .ok ("1.1.1.1", e)) ∨
    (∃ curr, (Except.ok "2.2.2.2" : Except String String) = .ok curr ∧
      updateDNSEntriesIP (fun _ _ => .ok ⟨200, Except.ok ""⟩) curr
        ["example.com"] = none ∧
      updateRecords (fun _ => .records []) (.ok "2.2.2.2")
        (fun _ _ => .ok ⟨200, Except.ok ""⟩) ["example.com"] "1.1.1.1" =
        .ok (curr, none)) :=
  updateRecords_cache_mutation_only_on_success (fun _ => .records [])
    (.ok "2.2.2.2") (fun _ _ => .ok ⟨200, Except.ok ""⟩) ["example.com"]
    "1.1.1.1" (by decide)

/-- One step of `getDNSEntriesIP`'s loop under an all-reads-succeed
fetch oracle. -/
theorem getDNSEntriesIPLoop_cons_recFetch (val : String → String)
    (d : String) (rest : List String) (retval : String) :
    getDNSEntriesIPLoop (recFetch val) (d :: rest) retval =
      (if retval ≠ val d ∧ retval ≠ "" then .ok "0.0.0.0"
       else getDNSEntriesIPLoop (recFetch val) rest (val d)) := rfl

/-- Once the accumulator holds a non-empty value, any domain reporting a
different value makes the loop return the sentinel. -/
theorem getDNSEntriesIPLoop_mismatch (val : String → String) :
    ∀ (ds : List String) (retval : String), retval ≠ "" →
      (∃ d ∈ ds, val d ≠ retval) →
      getDNSEntriesIPLoop (recFetch val) ds retval = .ok "0.0.0.0" := by
  intro ds
  induction ds with
  | nil =>
    intro retval _ hex
    simp at hex
  | cons d rest ih =>
    intro retval hr hex
    rw [getDNSEntriesIPLoop_cons_recFetch]
    by_cases hd : val d = retval
    · rw [if_neg (by simp [hd])]
      obtain ⟨d', hd', hval⟩ := hex
      rcases List.mem_cons.mp hd' with rfl | hmem
      · exact absurd hd hval
      · rw [hd]
        exact ih retval hr ⟨d', hmem, hval⟩
    · rw [if_pos ⟨Ne.symm hd, hr⟩]

/-- When every remaining domain reports the accumulator's (non-empty)
value, the loop returns that value. -/
theorem getDNSEntriesIPLoop_const (val : String → String) (x : String) :
    ∀ ds : List String, (∀ d ∈ ds, val d = x) →
      getDNSEntriesIPLoop (recFetch val) ds x = .ok x := by
  intro ds
  induction ds with
  | nil =>
    intro _
    rfl
  | cons d rest ih =>
    intro h
    rw [getDNSEntriesIPLoop_cons_recFetch]
    have hd : val d = x := h d (List.mem_cons_self d rest)
    rw [if_neg (by simp [hd]), hd]
    exact ih (fun d' hd' => h d' (List.mem_cons_of_mem d hd'))

/-- Claim C10 counterexample: with reported records "1.2.3.4" for a.com
and "" for b.com there are no two different non-empty record IPs, yet
the initial fetch returns the sentinel "0.0.0.0" — not the common (or
indeed any) reported record value, contradicting the claim's "otherwise
it returns the common record IP". -/
theorem getDNSEntriesIP_sentinel_without_two_nonempty :
    getDNSEntriesIP
      (recFetch (fun d => if d = "a.com" then "1.2.3.4" else ""))
      ["a.com", "b.com"] = .ok "0.0.0.0" ∧
    (["a.com", "b.com"] : List String).map
      (fun d => if d = "a.com" then "1.2.3.4" else "") = ["1.2.3.4", ""] ∧
    (∀ a ∈ ["1.2.3.4", ""], ∀ b ∈ ["1.2.3.4", ""],
      a ≠ "" → b ≠ "" → a = b) ∧
    "0.0.0.0" ∉ (["1.2.3.4", ""] : List String) := by
  exact ⟨by decide, by decide, by decide, by decide⟩

/-- Claim C10 (amended): when at least two domains report different
non-empty record IPs the initial fetch returns the sentinel "0.0.0.0",
and when every domain reports one common non-empty IP it returns that
IP; but when the reports differ without two of them being different and
non-empty (a non-empty record followed by an empty one) the fetch can
also return the sentinel rather than any actual record value. -/
theorem getDNSEntriesIP_sentinel_characterization (val : String → String)
    (domains : List String) :
    ((∃ d1 ∈ domains, ∃ d2 ∈ domains,
        val d1 ≠ "" ∧ val d2 ≠ "" ∧ val d1 ≠ val d2) →
      getDNSEntriesIP (recFetch val) domains = .ok "0.0.0.0") ∧
    (∀ x, x ≠ "" → domains ≠ [] → (∀ d ∈ domains, val d = x) →
      getDNSEntriesIP (recFetch val) domains = .ok x) := by
  constructor
  · induction domains with
    | nil =>
      intro hex
      simp at hex
    | cons d rest ih =>
      intro hex
      obtain ⟨d1, hd1, d2, hd2, h1, h2, h12⟩ := hex
      show getDNSEntriesIPLoop (recFetch val) (d :: rest) "" = .ok "0.0.0.0"
      rw [getDNSEntriesIPLoop_cons_recFetch, if_neg (by simp)]
      by_cases hd : val d = ""
      · have m1 : d1 ∈ rest := by
          rcases List.mem_cons.mp hd1 with rfl | h
          · exact absurd hd h1
          · exact h
        have m2 : d2 ∈ rest := by
          rcases List.mem_cons.mp hd2 with rfl | h
          · exact absurd hd h2
          · exact h
        rw [hd]
        exact ih ⟨d1, m1, d2, m2, h1, h2, h12⟩
      · by_cases e1 : val d1 = val d
        · have hne : val d2 ≠ val d := by
            rw [← e1]
            exact fun hh => h12 hh.symm
          have m2 : d2 ∈ rest := by
            rcases List.mem_cons.mp hd2 with rfl | h
            · exact absurd rfl hne
            · exact h
          exact getDNSEntriesIPLoop_mismatch val rest (val d) hd ⟨d2, m2, hne⟩
        · have m1 : d1 ∈ rest := by
            rcases List.mem_cons.mp hd1 with rfl | h
            · exact absurd rfl e1
            · exact h
          exact getDNSEntriesIPLoop_mismatch val rest (val d) hd ⟨d1, m1, e1⟩
  · intro x hx hne hall
    cases domains with
    | nil => exact absurd rfl hne
    | cons d rest =>
      show getDNSEntriesIPLoop (recFetch val) (d :: rest) "" = .ok x
      rw [getDNSEntriesIPLoop_cons_recFetch, if_neg (by simp)]
      rw [hall d (List.mem_cons_self d rest)]
      exact getDNSEntriesIPLoop_const val x rest
        (fun d' hd' => hall d' (List.mem_cons_of_mem d hd'))

/-- Witness for claim C10 (amended): two different non-empty records
give the sentinel; a common record "7.7.7.7" is returned as is. -/
theorem getDNSEntriesIP_sentinel_characterization_witness :
    getDNSEntriesIP
      (recFetch (fun d => if d = "a.com" then "1.2.3.4" else "5.6.7.8"))
      ["a.com", "b.com"] = .ok "0.0.0.0" ∧
    getDNSEntriesIP (recFetch (fun _ => "7.7.7.7")) ["a.com", "b.com"] =
      .ok "7.7.7.7" :=
  ⟨(getDNSEntriesIP_sentinel_characterization
      (fun d => if d = "a.com" then "1.2.3.4" else "5.6.7.8")
      ["a.com", "b.com"]).1
      ⟨"a.com", by decide, "b.com", by decide, by decide, by decide,
        by decide⟩,
   (getDNSEntriesIP_sentinel_characterization (fun _ => "7.7.7.7")
      ["a.com", "b.com"]).2 "7.7.7.7" (by decide) (by decide) (by decide)⟩
